import Mathlib

/-!
Shallow embedding of the Networth portfolio-tracking dashboard
(valuation engine, allocation, price-refresh merge, insight requestor,
asset upsert/delete), translated from the TypeScript source:
  - App component (`part_000`): totalValueINR, totalInvestedINR,
    totalProfitINR, totalProfitPct, assetPerformanceData, allocationData,
    refreshPrices, fetchInsights, handleSaveAsset, handleDeleteAsset;
  - geminiService: getBatchPrices, getAIInsights;
  - AssetCard (`part_001`): currentValue, costBasis, profitLoss,
    profitLossPercentage;
  - types.ts / constants.tsx: Asset, AssetType, USD_TO_INR.
JavaScript numbers are modelled as rationals (ℚ); `Math.round` as
floor (x + 1/2), which is JS round-half-toward-+∞ semantics; a JS object
used as a symbol→price map is modelled as an association list with
first-match lookup; JS truthiness of a looked-up number (`if (m[s])`) is
"present and nonzero".
-/

namespace Networth

/-- `AssetType` enum from types.ts. -/
inductive AssetType where
  | CRYPTO
  | INDIAN_STOCK
  | US_STOCK
  | BANK_ACCOUNT
deriving DecidableEq, Repr

/-- The `currency` field's type, `'INR' | 'USD'` from types.ts. -/
inductive Currency where
  | INR
  | USD
deriving DecidableEq, Repr

/-- The `Asset` interface from types.ts. Numeric fields are rationals. -/
structure Asset where
  id : String
  type : AssetType
  name : String
  symbol : String
  quantity : ℚ
  averagePrice : ℚ
  currentPrice : ℚ
  currency : Currency
  bankName : Option String := none
deriving DecidableEq, Repr

/-- `USD_TO_INR = 83.5` from constants.tsx. -/
def USD_TO_INR : ℚ := 167 / 2

/-- `totalValueINR` from the App component:
`assets.reduce((sum, asset) => { const val = asset.quantity * asset.currentPrice;
 return sum + (asset.currency === 'INR' ? val : val * USD_TO_INR); }, 0)`. -/
def totalValueINR (assets : List Asset) : ℚ :=
  assets.foldl
    (fun sum asset =>
      let val := asset.quantity * asset.currentPrice
      sum + (if asset.currency = Currency.INR then val else val * USD_TO_INR))
    0

/-- `totalInvestedINR` from the App component; `(asset.averagePrice || 0)` is
the identity on an always-present numeric field, so it is `asset.averagePrice`. -/
def totalInvestedINR (assets : List Asset) : ℚ :=
  assets.foldl
    (fun sum asset =>
      let val := asset.quantity * asset.averagePrice
      sum + (if asset.currency = Currency.INR then val else val * USD_TO_INR))
    0

/-- `totalProfitINR = totalValueINR - totalInvestedINR`. -/
def totalProfitINR (assets : List Asset) : ℚ :=
  totalValueINR assets - totalInvestedINR assets

/-- `totalProfitPct = totalInvestedINR > 0 ? (totalProfitINR / totalInvestedINR) * 100 : 0`. -/
def totalProfitPct (assets : List Asset) : ℚ :=
  if 0 < totalInvestedINR assets then totalProfitINR assets / totalInvestedINR assets * 100
  else 0

/-- The value a single asset contributes to `totalMarketValue` according to the
spec's wording: `quantity × currentPrice`, multiplied by the USD→INR rate when
the currency is USD and left unchanged when it is INR. -/
def specConvertedMarketValue (a : Asset) : ℚ :=
  a.quantity * a.currentPrice * (if a.currency = Currency.USD then USD_TO_INR else 1)

/-- The two-asset example from the spec: BTC, qty 0.25, avg 45000,
current 64000, USD. -/
def exampleBTC : Asset :=
  { id := "1", type := AssetType.CRYPTO, name := "Bitcoin", symbol := "BTC",
    quantity := 1/4, averagePrice := 45000, currentPrice := 64000,
    currency := Currency.USD }

/-- The two-asset example from the spec: RELIANCE, qty 50, avg 2400,
current 2950, INR. -/
def exampleRELIANCE : Asset :=
  { id := "2", type := AssetType.INDIAN_STOCK, name := "Reliance Industries",
    symbol := "RELIANCE", quantity := 50, averagePrice := 2400,
    currentPrice := 2950, currency := Currency.INR }

theorem foldl_add_eq_sum (f : Asset → ℚ) (assets : List Asset) (c : ℚ) :
    assets.foldl (fun sum a => sum + f a) c = c + (assets.map f).sum := by
  induction assets generalizing c with
  | nil => simp
  | cons a l ih => simp [List.foldl_cons, ih (c + f a), add_assoc]

theorem totalValueINR_eq_sum (assets : List Asset) :
    totalValueINR assets = (assets.map specConvertedMarketValue).sum := by
  have h : totalValueINR assets =
      assets.foldl (fun sum a => sum + specConvertedMarketValue a) 0 := by
    unfold totalValueINR
    congr 1
    funext sum a
    cases ha : a.currency <;>
      simp [specConvertedMarketValue, ha, mul_comm, mul_assoc]
  rw [h, foldl_add_eq_sum, zero_add]

/-- JavaScript `Math.round`: nearest integer, ties toward +∞, i.e. ⌊x + 1/2⌋. -/
def jsRound (q : ℚ) : ℤ := ⌊q + 1/2⌋

/-- The display color keyed by asset type used in `assetPerformanceData`:
`a.type === CRYPTO ? '#f59e0b' : a.type === INDIAN_STOCK ? '#3b82f6' :
 a.type === US_STOCK ? '#6366f1' : '#10b981'`. -/
def typeColor : AssetType → String
  | AssetType.CRYPTO => "#f59e0b"
  | AssetType.INDIAN_STOCK => "#3b82f6"
  | AssetType.US_STOCK => "#6366f1"
  | AssetType.BANK_ACCOUNT => "#10b981"

/-- One entry of `assetPerformanceData`. The code stores `Math.round`ed
invested and market values; `profitPct` is kept as the computed rational
(the code additionally formats it with `toFixed(1)` for display, a
string-formatting step not modelled). -/
structure PerfEntry where
  symbol : String
  name : String
  invested : ℤ
  value : ℤ
  profitPct : ℚ
  color : String
deriving DecidableEq, Repr

/-- The `.map` body of `assetPerformanceData`:
multiplier = USD ? 83.5 : 1; marketValue = qty × currentPrice × multiplier;
investedValue = qty × averagePrice × multiplier; profit = market − invested;
profitPct = invested > 0 ? profit / invested × 100 : 0. -/
def mkPerfEntry (a : Asset) : PerfEntry :=
  let multiplier := if a.currency = Currency.USD then USD_TO_INR else 1
  let marketValue := a.quantity * a.currentPrice * multiplier
  let investedValue := a.quantity * a.averagePrice * multiplier
  let profit := marketValue - investedValue
  let profitPct := if 0 < investedValue then profit / investedValue * 100 else 0
  { symbol := a.symbol, name := a.name, invested := jsRound investedValue,
    value := jsRound marketValue, profitPct := profitPct,
    color := typeColor a.type }

/-- Converted market value of one asset as computed inside
`assetPerformanceData` (before rounding). -/
def perfMarketValue (a : Asset) : ℚ :=
  a.quantity * a.currentPrice * (if a.currency = Currency.USD then USD_TO_INR else 1)

/-- Converted invested value of one asset as computed inside
`assetPerformanceData` (before rounding). -/
def perfInvestedValue (a : Asset) : ℚ :=
  a.quantity * a.averagePrice * (if a.currency = Currency.USD then USD_TO_INR else 1)

/-- Stable insertion step for a descending sort on the rounded `value` field:
an element is inserted after every earlier element of greater-or-equal value,
matching the stable-sort semantics of JS `Array.prototype.sort` with
comparator `(a, b) => b.value - a.value`. -/
def insertValueDesc (x : PerfEntry) : List PerfEntry → List PerfEntry
  | [] => [x]
  | y :: ys => if y.value ≤ x.value then x :: y :: ys else y :: insertValueDesc x ys

/-- Stable descending sort by rounded `value`, modelling
`.sort((a, b) => b.value - a.value)` (JS sort is stable). -/
def sortValueDesc : List PerfEntry → List PerfEntry
  | [] => []
  | x :: xs => insertValueDesc x (sortValueDesc xs)

/-- `assetPerformanceData`: map each asset to its performance entry, stably
sort descending by the rounded market value, keep the first 8
(`.slice(0, 8)`). -/
def assetPerformanceData (assets : List Asset) : List PerfEntry :=
  (sortValueDesc (assets.map mkPerfEntry)).take 8

/-- One bucket of `allocationData`; `value` is the `Math.round`ed converted
total of the bucket's asset type. -/
structure AllocationBucket where
  name : String
  value : ℤ
  color : String
deriving DecidableEq, Repr

/-- The fixed `types` array inside `allocationData`, in source order. -/
def allocationTypes : List (String × AssetType × String) :=
  [("Crypto", AssetType.CRYPTO, "#f59e0b"),
   ("Indian Stocks", AssetType.INDIAN_STOCK, "#3b82f6"),
   ("US Stocks", AssetType.US_STOCK, "#6366f1"),
   ("Bank Accounts", AssetType.BANK_ACCOUNT, "#10b981")]

/-- The `val` reduce inside `allocationData`: converted market value summed
over the assets of one type. -/
def typeSumINR (t : AssetType) (assets : List Asset) : ℚ :=
  (assets.filter fun a => a.type = t).foldl
    (fun sum a =>
      let amount := a.quantity * a.currentPrice
      sum + (if a.currency = Currency.INR then amount else amount * USD_TO_INR))
    0

/-- `allocationData`: one bucket per type in the fixed order, value
`Math.round`ed, then `.filter(d => d.value > 0)`. -/
def allocationData (assets : List Asset) : List AllocationBucket :=
  (allocationTypes.map fun tc =>
    { name := tc.1, value := jsRound (typeSumINR tc.2.1 assets),
      color := tc.2.2 : AllocationBucket }).filter
    fun d => 0 < d.value

/-- The amended allocation policy, written from the spec side: walk the four
types in canonical order, keep exactly those whose rounded converted sum is
positive, and emit name / rounded value / color. -/
def specAllocation (assets : List Asset) : List AllocationBucket :=
  (allocationTypes.filter fun tc => 0 < jsRound (typeSumINR tc.2.1 assets)).map
    fun tc => { name := tc.1, value := jsRound (typeSumINR tc.2.1 assets),
                color := tc.2.2 }

/-- A CRYPTO holding whose converted market value is 0.4 INR: nonzero, but
`Math.round(0.4) = 0`. -/
def tinyCrypto : Asset :=
  { id := "tc", type := AssetType.CRYPTO, name := "Dust", symbol := "DUST",
    quantity := 2/5, averagePrice := 0, currentPrice := 1,
    currency := Currency.INR }

/-- A CRYPTO holding worth exactly 1 INR, whose bucket survives rounding. -/
def oneCrypto : Asset :=
  { id := "oc", type := AssetType.CRYPTO, name := "One", symbol := "ONE",
    quantity := 1, averagePrice := 1, currentPrice := 1,
    currency := Currency.INR }

/-- A JS object mapping symbols to prices, as returned by `getBatchPrices`:
an association list, looked up by first match. -/
def PriceMap : Type := List (String × ℚ)

/-- Property access `priceMap[symbol]`: the first binding for the symbol,
`none` for `undefined`. -/
def lookupPrice (m : PriceMap) (symbol : String) : Option ℚ :=
  (List.find? (fun kv => kv.1 = symbol) m).map (fun kv => kv.2)

/-- The `setAssets` updater inside `refreshPrices`:
`prev.map(asset => priceMap[asset.symbol] ? { ...asset, currentPrice:
priceMap[asset.symbol] } : asset)`. JS truthiness of the looked-up number:
present and nonzero. -/
def applyPriceMap (priceMap : PriceMap) (prev : List Asset) : List Asset :=
  prev.map fun asset =>
    match lookupPrice priceMap asset.symbol with
    | some p => if p ≠ 0 then { asset with currentPrice := p } else asset
    | none => asset

/-- `trackableAssets` from `getBatchPrices`:
`assets.filter(a => a.type !== 'BANK_ACCOUNT')`. -/
def trackableAssets (assets : List Asset) : List Asset :=
  assets.filter fun a => a.type ≠ AssetType.BANK_ACCOUNT

/-- Outcome of one external AI call: `Except.error` covers a network failure
or a response whose JSON cannot be parsed (both throw inside the service's
`try`), `Except.ok` a successfully parsed symbol→price object. -/
def BatchOutcome : Type := Except Unit PriceMap

/-- `getBatchPrices`, returning the merged price map and the number of
external calls issued: an empty trackable set returns `{}` without calling;
otherwise one call is made and any thrown error is caught and downgraded to
`{}`. -/
def getBatchPrices (assets : List Asset) (outcome : BatchOutcome) :
    PriceMap × Nat :=
  if (trackableAssets assets).isEmpty then ([], 0)
  else
    match outcome with
    | Except.ok m => (m, 1)
    | Except.error _ => ([], 1)

/-- `AIInsight` from types.ts. -/
structure AIInsight where
  title : String
  content : String
  insightType : String
deriving DecidableEq, Repr

/-- Outcome of one `getAIInsights` call (error = network failure or
unparsable response). -/
def InsightOutcome : Type := Except Unit (List AIInsight)

/-- `getAIInsights`: the service catches any error and returns `[]`. -/
def getAIInsights (outcome : InsightOutcome) : List AIInsight :=
  match outcome with
  | Except.ok l => l
  | Except.error _ => []

/-- The App component's state relevant to the claims: the asset store, the
in-flight refresh guard, the last-updated timestamp (abstract clock value),
and the insight list. -/
structure AppState where
  assets : List Asset
  isRefreshingPrices : Bool
  lastUpdated : Nat
  insights : List AIInsight
deriving DecidableEq, Repr

/-- One invocation of `refreshPrices`, as a function of the collaborator
outcome and the current clock value `now`; returns the next state and the
number of external collaborator calls issued. Mirrors:
guard `if (isRefreshingPrices || assets.length === 0) return;`, then
`getBatchPrices`, then merge + timestamp only when
`Object.keys(priceMap).length > 0`; the `finally` clears the in-flight flag
(which the guard had established as `false`). -/
def refreshPricesStep (outcome : BatchOutcome) (now : Nat) (s : AppState) :
    AppState × Nat :=
  if s.isRefreshingPrices || s.assets.length == 0 then (s, 0)
  else
    let pm := getBatchPrices s.assets outcome
    if pm.1.isEmpty then ({ s with isRefreshingPrices := false }, pm.2)
    else
      ({ s with assets := applyPriceMap pm.1 s.assets, lastUpdated := now,
                isRefreshingPrices := false }, pm.2)

/-- One run of the `fetchInsights` effect in the App component:
empty collection resets the insight list; otherwise the (error-absorbing)
`getAIInsights` result is stored. The asset store is not touched. -/
def fetchInsightsStep (outcome : InsightOutcome) (s : AppState) : AppState :=
  if s.assets.length == 0 then { s with insights := [] }
  else { s with insights := getAIInsights outcome }

/-- `handleSaveAsset`'s `setAssets` updater: if some element has the saved
asset's id, replace every such element, else append. -/
def handleSaveAsset (asset : Asset) (prev : List Asset) : List Asset :=
  match List.find? (fun a => a.id = asset.id) prev with
  | some _ => prev.map fun a => if a.id = asset.id then asset else a
  | none => prev ++ [asset]

/-- `handleDeleteAsset`'s `setAssets` updater:
`prev.filter(a => a.id !== id)`. -/
def handleDeleteAsset (id : String) (prev : List Asset) : List Asset :=
  prev.filter fun a => a.id ≠ id

/-- `currentValue` from the AssetCard component: quantity × currentPrice. -/
def cardCurrentValue (a : Asset) : ℚ := a.quantity * a.currentPrice

/-- `costBasis` from the AssetCard component: quantity × averagePrice
(`(asset.averagePrice || 0)` is the identity on a present number). -/
def cardCostBasis (a : Asset) : ℚ := a.quantity * a.averagePrice

/-- `profitLoss` from the AssetCard component. -/
def cardProfitLoss (a : Asset) : ℚ := cardCurrentValue a - cardCostBasis a

/-- `profitLossPercentage` from the AssetCard component:
`costBasis !== 0 ? (profitLoss / costBasis) * 100 : 0`. -/
def cardProfitLossPercentage (a : Asset) : ℚ :=
  if cardCostBasis a ≠ 0 then cardProfitLoss a / cardCostBasis a * 100 else 0

/-- C1: `totalValueINR` equals the sum over assets of quantity × currentPrice,
each term multiplied by the fixed rate 83.5 when the asset's currency is USD
and left unchanged when it is INR; on the spec's two-asset example it equals
1,483,500, and on the empty collection it equals 0. -/
theorem totalValueINR_spec (assets : List Asset) :
    totalValueINR assets = (assets.map specConvertedMarketValue).sum ∧
    totalValueINR [exampleBTC, exampleRELIANCE] = 1483500 ∧
    totalValueINR ([] : List Asset) = 0 := by
  refine ⟨totalValueINR_eq_sum assets, ?_, rfl⟩
  norm_num [totalValueINR, exampleBTC, exampleRELIANCE, USD_TO_INR, List.foldl,
    show Currency.USD ≠ Currency.INR from by decide]

theorem jsRound_eq_of (q : ℚ) (n : ℤ) (h1 : (n : ℚ) ≤ q + 1/2)
    (h2 : q + 1/2 < (n : ℚ) + 1) : jsRound q = n := by
  rw [jsRound]
  exact Int.floor_eq_iff.mpr ⟨h1, h2⟩

theorem jsRound_zero : jsRound 0 = 0 := by
  apply jsRound_eq_of <;> norm_num

/-- C2 (counterexample): a CRYPTO holding worth 0.4 INR gives the CRYPTO
bucket the nonzero summed converted value 2/5, yet `allocationData` returns
no bucket at all, because the code rounds the sum before the `> 0` filter:
omission is not "exactly when the summed value is exactly zero". -/
theorem allocation_exact_zero_counterexample :
    typeSumINR AssetType.CRYPTO [tinyCrypto] = 2/5 ∧ (2/5 : ℚ) ≠ 0 ∧
    allocationData [tinyCrypto] = [] := by
  have hsum : typeSumINR AssetType.CRYPTO [tinyCrypto] = 2/5 := by
    norm_num [typeSumINR, tinyCrypto, List.filter, List.foldl]
  have hcr : jsRound (typeSumINR AssetType.CRYPTO [tinyCrypto]) = 0 := by
    rw [hsum]; apply jsRound_eq_of <;> norm_num
  have hi : typeSumINR AssetType.INDIAN_STOCK [tinyCrypto] = 0 := rfl
  have hu : typeSumINR AssetType.US_STOCK [tinyCrypto] = 0 := rfl
  have hb : typeSumINR AssetType.BANK_ACCOUNT [tinyCrypto] = 0 := rfl
  refine ⟨hsum, by norm_num, ?_⟩
  simp [allocationData, allocationTypes, hcr, hi, hu, hb, jsRound_zero,
    List.filter]

/-- C2 (amended): `allocationData` walks the four asset types in the fixed
canonical order {CRYPTO, INDIAN_STOCK, US_STOCK, BANK_ACCOUNT}; each emitted
bucket's value is the converted per-type sum rounded to the nearest integer,
and a bucket is omitted exactly when that rounded value is not positive (so a
nonzero sum below 0.5 is also omitted); the empty collection yields the empty
sequence, and every emitted bucket has positive rounded value. -/
theorem allocationData_spec (assets : List Asset) :
    allocationData assets = specAllocation assets ∧
    allocationData [] = [] ∧
    ∀ b ∈ allocationData assets, 0 < b.value := by
  refine ⟨?_, ?_, ?_⟩
  · rw [allocationData, specAllocation, List.filter_map]
    rfl
  · have h : ∀ t, typeSumINR t ([] : List Asset) = 0 := fun t => rfl
    simp [allocationData, allocationTypes, h, jsRound_zero, List.filter]
  · intro b hb
    have := (List.mem_filter.mp hb).2
    simpa using this

theorem allocation_oneCrypto_eval :
    allocationData [oneCrypto] =
      [{ name := "Crypto", value := 1, color := "#f59e0b" }] := by
  have hcr : jsRound (typeSumINR AssetType.CRYPTO [oneCrypto]) = 1 := by
    have hsum : typeSumINR AssetType.CRYPTO [oneCrypto] = 1 := by
      norm_num [typeSumINR, oneCrypto, List.filter, List.foldl]
    rw [hsum]; apply jsRound_eq_of <;> norm_num
  have hi : typeSumINR AssetType.INDIAN_STOCK [oneCrypto] = 0 := rfl
  have hu : typeSumINR AssetType.US_STOCK [oneCrypto] = 0 := rfl
  have hb : typeSumINR AssetType.BANK_ACCOUNT [oneCrypto] = 0 := rfl
  simp [allocationData, allocationTypes, hcr, hi, hu, hb, jsRound_zero,
    List.filter]

theorem allocationData_spec_witness :
    0 < ({ name := "Crypto", value := 1, color := "#f59e0b" } :
        AllocationBucket).value :=
  (allocationData_spec [oneCrypto]).2.2 _
    (by rw [allocation_oneCrypto_eval]; exact List.mem_singleton.mpr rfl)

/-- C3 (counterexample): the mapping `{"BTC": 0}` contains a non-null entry
for the asset's symbol, yet the merge leaves `currentPrice = 64000`
unchanged, because the code tests JS truthiness (`if (priceMap[s])`), which
is false for the number 0. -/
theorem merge_nonnull_counterexample :
    lookupPrice [("BTC", 0)] "BTC" = some 0 ∧
    applyPriceMap [("BTC", 0)] [exampleBTC] = [exampleBTC] ∧
    exampleBTC.currentPrice = 64000 := by
  exact ⟨rfl, rfl, rfl⟩

/-- C3 (amended): the merge preserves length and replaces an asset's
`currentPrice` with the mapped price exactly when the mapping contains a
non-null, nonzero (truthy) entry for its symbol; an asset whose symbol is
absent, or whose mapped price is 0, is unchanged; merging `{"BTC": 70000}`
into the BTC asset yields `currentPrice = 70000`. -/
theorem applyPriceMap_spec (m : PriceMap) (prev : List Asset) :
    (applyPriceMap m prev).length = prev.length ∧
    (∀ i (h : i < prev.length) p, lookupPrice m (prev[i].symbol) = some p →
      p ≠ 0 →
      (applyPriceMap m prev)[i]? = some { prev[i] with currentPrice := p }) ∧
    (∀ i (h : i < prev.length), lookupPrice m (prev[i].symbol) = none →
      (applyPriceMap m prev)[i]? = some prev[i]) ∧
    (∀ i (h : i < prev.length), lookupPrice m (prev[i].symbol) = some 0 →
      (applyPriceMap m prev)[i]? = some prev[i]) ∧
    applyPriceMap [("BTC", 70000)] [exampleBTC] =
      [{ exampleBTC with currentPrice := 70000 }] := by
  refine ⟨by simp [applyPriceMap], ?_, ?_, ?_, ?_⟩
  · intro i h p hp hp0
    simp [applyPriceMap, List.getElem?_map, List.getElem?_eq_getElem h, hp,
      hp0]
  · intro i h hp
    simp [applyPriceMap, List.getElem?_map, List.getElem?_eq_getElem h, hp]
  · intro i h hp
    simp [applyPriceMap, List.getElem?_map, List.getElem?_eq_getElem h, hp]
  · rfl

theorem applyPriceMap_spec_witness :
    (applyPriceMap [("BTC", 70000)] [exampleBTC])[0]? =
      some { exampleBTC with currentPrice := 70000 } :=
  (applyPriceMap_spec [("BTC", 70000)] [exampleBTC]).2.1 0 (by norm_num)
    70000 rfl (by norm_num)

/-- An INDIAN_STOCK holding that shares the symbol "HDFC" with the seed
BANK_ACCOUNT asset. -/
def hdfcStock : Asset :=
  { id := "s7", type := AssetType.INDIAN_STOCK, name := "HDFC Bank Ltd",
    symbol := "HDFC", quantity := 10, averagePrice := 1400,
    currentPrice := 1500, currency := Currency.INR }

/-- The seed BANK_ACCOUNT asset from constants.tsx (symbol "HDFC"). -/
def hdfcBank : Asset :=
  { id := "4", type := AssetType.BANK_ACCOUNT, name := "Savings Account",
    symbol := "HDFC", quantity := 1, averagePrice := 450000,
    currentPrice := 450000, currency := Currency.INR,
    bankName := some "HDFC Bank" }

/-- C4 (code bug, evaluated): BANK_ACCOUNT assets are indeed excluded from
the request set (`trackableAssets`), but the merge in `refreshPrices` is
type-blind: a refresh whose response maps "HDFC" to 1520 overwrites the
`currentPrice` (the balance, 450000) of the BANK_ACCOUNT asset with symbol
"HDFC" as well as the stock's. -/
theorem bank_account_merge_bug :
    trackableAssets [hdfcStock, hdfcBank] = [hdfcStock] ∧
    hdfcBank.type = AssetType.BANK_ACCOUNT ∧
    hdfcBank.currentPrice = 450000 ∧
    (refreshPricesStep (Except.ok [("HDFC", 1520)]) 1
        { assets := [hdfcStock, hdfcBank], isRefreshingPrices := false,
          lastUpdated := 0, insights := [] }).1.assets =
      [{ hdfcStock with currentPrice := 1520 },
       { hdfcBank with currentPrice := 1520 }] := by
  exact ⟨rfl, rfl, rfl, rfl⟩

/-- C6: the profit-percentage computations never divide by zero. The overall
percent is `profit / invested × 100` exactly when `totalInvestedINR > 0` and
exactly 0 otherwise, so it is 0 whenever invested cost is 0 regardless of
market value; the per-asset percent in `assetPerformanceData` carries the
same guard, and the AssetCard percent (guarded by `costBasis !== 0`) is also
0 at zero cost basis and agrees with the `> 0`-guarded form on the data
model's contract `costBasis ≥ 0`. -/
theorem profit_pct_zero_guard (assets : List Asset) (a : Asset) :
    totalProfitPct assets =
      (if 0 < totalInvestedINR assets then
        (totalValueINR assets - totalInvestedINR assets) /
          totalInvestedINR assets * 100
      else 0) ∧
    (totalInvestedINR assets = 0 → totalProfitPct assets = 0) ∧
    ((mkPerfEntry a).profitPct =
      if 0 < perfInvestedValue a then
        (perfMarketValue a - perfInvestedValue a) / perfInvestedValue a * 100
      else 0) ∧
    (perfInvestedValue a = 0 → (mkPerfEntry a).profitPct = 0) ∧
    (cardCostBasis a = 0 → cardProfitLossPercentage a = 0) ∧
    (0 ≤ cardCostBasis a → cardProfitLossPercentage a =
      if 0 < cardCostBasis a then
        cardProfitLoss a / cardCostBasis a * 100
      else 0) := by
  refine ⟨rfl, ?_, rfl, ?_, ?_, ?_⟩
  · intro h
    simp [totalProfitPct, h]
  · intro h
    simp [mkPerfEntry, perfInvestedValue] at h ⊢
    simp [h]
  · intro h
    simp [cardProfitLossPercentage, h]
  · intro h
    rcases eq_or_lt_of_le h with h0 | hpos
    · simp [cardProfitLossPercentage, ← h0]
    · simp [cardProfitLossPercentage, hpos, ne_of_gt hpos]

theorem profit_pct_zero_guard_witness :
    totalInvestedINR [] = 0 ∧ totalProfitPct [] = 0 ∧
    perfInvestedValue tinyCrypto = 0 ∧
    (mkPerfEntry tinyCrypto).profitPct = 0 ∧
    cardCostBasis tinyCrypto = 0 ∧ cardProfitLossPercentage tinyCrypto = 0 := by
  have h := profit_pct_zero_guard [] tinyCrypto
  have h1 : totalInvestedINR [] = 0 := rfl
  have h2 : perfInvestedValue tinyCrypto = 0 := by
    norm_num [perfInvestedValue, tinyCrypto]
  have h3 : cardCostBasis tinyCrypto = 0 := by
    norm_num [cardCostBasis, tinyCrypto]
  exact ⟨h1, h.2.1 h1, h2, h.2.2.2.1 h2, h3, h.2.2.2.2.1 h3⟩

/-- C7: the concurrency guard — invoking `refreshPrices` while a refresh is
already in flight returns immediately: the whole state (asset store,
timestamp, flags, insights) is unchanged and no collaborator call is
issued. -/
theorem refresh_concurrency_guard (outcome : BatchOutcome) (now : Nat)
    (s : AppState) (h : s.isRefreshingPrices = true) :
    refreshPricesStep outcome now s = (s, 0) := by
  simp [refreshPricesStep, h]

theorem refresh_concurrency_guard_witness :
    refreshPricesStep (Except.ok [("BTC", 70000)]) 5
        { assets := [exampleBTC], isRefreshingPrices := true,
          lastUpdated := 0, insights := [] } =
      ({ assets := [exampleBTC], isRefreshingPrices := true,
         lastUpdated := 0, insights := [] }, 0) :=
  refresh_concurrency_guard (Except.ok [("BTC", 70000)]) 5 _ rfl

/-- C8 (counterexample): a refresh whose collaborator call succeeds and
parses, but to an empty mapping, does not record a new timestamp: with a
nonempty asset collection, clock value 1 and previous timestamp 0, the state
is returned entirely unchanged, refuting "on success it records a new
last-updated timestamp". -/
theorem refresh_success_timestamp_counterexample :
    (refreshPricesStep (Except.ok []) 1
        { assets := [exampleBTC], isRefreshingPrices := false,
          lastUpdated := 0, insights := [] }).1 =
      { assets := [exampleBTC], isRefreshingPrices := false,
        lastUpdated := 0, insights := [] } ∧
    (0 : Nat) ≠ 1 := by
  exact ⟨rfl, by norm_num⟩

/-- C8 (amended): a failed or unparsable collaborator response, an empty
asset collection, or a successful response whose mapping is empty, all leave
the asset store and last-updated timestamp unchanged (failures are absorbed;
the model is a total function, so no error escapes); a successful response
with a nonempty mapping (with the guard clear and at least one trackable
asset) merges prices and records the new timestamp `now`. -/
theorem clearFlag_eq_self (s : AppState) (h : s.isRefreshingPrices = false) :
    ({ assets := s.assets, isRefreshingPrices := false,
       lastUpdated := s.lastUpdated, insights := s.insights } : AppState)
      = s := by
  cases s
  simp_all

theorem refresh_error_handling (s : AppState) (now : Nat) (m : PriceMap)
    (outcome : BatchOutcome) :
    ((refreshPricesStep (Except.error ()) now s).1 = s) ∧
    (s.assets = [] → refreshPricesStep outcome now s = (s, 0)) ∧
    ((refreshPricesStep (Except.ok []) now s).1 = s) ∧
    (s.isRefreshingPrices = false → trackableAssets s.assets ≠ [] → m ≠ [] →
      refreshPricesStep (Except.ok m) now s =
        ({ s with assets := applyPriceMap m s.assets, lastUpdated := now,
                  isRefreshingPrices := false }, 1)) := by
  refine ⟨?_, ?_, ?_, ?_⟩
  · by_cases hg : s.isRefreshingPrices = true
    · simp [refreshPricesStep, hg]
    · simp only [Bool.not_eq_true] at hg
      by_cases he : s.assets.length = 0
      · simp [refreshPricesStep, hg, he]
      · by_cases ht : (trackableAssets s.assets).isEmpty
        · simp [refreshPricesStep, getBatchPrices, hg, he, ht,
            clearFlag_eq_self s hg]
        · simp [refreshPricesStep, getBatchPrices, hg, he, ht,
            clearFlag_eq_self s hg]
  · intro h
    simp [refreshPricesStep, h]
  · by_cases hg : s.isRefreshingPrices = true
    · simp [refreshPricesStep, hg]
    · simp only [Bool.not_eq_true] at hg
      by_cases he : s.assets.length = 0
      · simp [refreshPricesStep, hg, he]
      · by_cases ht : (trackableAssets s.assets).isEmpty
        · simp [refreshPricesStep, getBatchPrices, hg, he, ht,
            clearFlag_eq_self s hg]
        · simp [refreshPricesStep, getBatchPrices, hg, he, ht,
            clearFlag_eq_self s hg]
  · intro hg ht hm
    have he : ¬s.assets.length = 0 := by
      intro h0
      exact ht (by simp [trackableAssets, List.eq_nil_of_length_eq_zero h0])
    have ht' : (trackableAssets s.assets).isEmpty = false := by
      simpa [List.isEmpty_iff] using ht
    have hm' : m.isEmpty = false := by
      cases m with
      | nil => exact absurd rfl hm
      | cons x xs => rfl
    simp [refreshPricesStep, getBatchPrices, hg, he, ht', hm']

theorem refresh_error_handling_witness :
    refreshPricesStep (Except.ok [("BTC", 70000)]) 7
        { assets := [exampleBTC], isRefreshingPrices := false,
          lastUpdated := 0, insights := [] } =
      ({ assets := [{ exampleBTC with currentPrice := 70000 }],
         isRefreshingPrices := false, lastUpdated := 7, insights := [] },
       1) := by
  have h := (refresh_error_handling
    { assets := [exampleBTC], isRefreshingPrices := false,
      lastUpdated := 0, insights := [] } 7 [("BTC", 70000)]
    (Except.ok [("BTC", 70000)])).2.2.2 rfl
    (by exact fun hEq => List.cons_ne_nil _ _ hEq) (by
      exact fun hEq => List.cons_ne_nil _ _ hEq)
  rw [h]
  rfl

/-- C9: a failed or unparsable insight response is caught at the call
boundary and treated as the empty sequence: the insight list resets to
empty, the asset store and timestamp are untouched, and valuation results
(`totalValueINR`, `allocationData`) computed from the store are
unaffected. -/
theorem insight_error_absorbed (s : AppState) :
    (fetchInsightsStep (Except.error ()) s).insights = [] ∧
    (fetchInsightsStep (Except.error ()) s).assets = s.assets ∧
    (fetchInsightsStep (Except.error ()) s).lastUpdated = s.lastUpdated ∧
    totalValueINR (fetchInsightsStep (Except.error ()) s).assets =
      totalValueINR s.assets ∧
    allocationData (fetchInsightsStep (Except.error ()) s).assets =
      allocationData s.assets := by
  by_cases h : s.assets.length = 0 <;>
    simp [fetchInsightsStep, getAIInsights, h]

/-- C10: saving an asset is an order-preserving upsert and deletion is an
order-preserving removal: when some element of the collection has the saved
asset's id, every such element is replaced in place (length and the position
and value of every other element unchanged); when none has it, the asset is
appended at the end; deleting by id yields an order-preserving sublist
containing exactly the elements whose id differs, with their multiplicities
intact. -/
theorem save_delete_spec (asset : Asset) (prev : List Asset) (id : String) :
    ((∃ a ∈ prev, a.id = asset.id) →
      (handleSaveAsset asset prev).length = prev.length ∧
      ∀ i (h : i < prev.length),
        (handleSaveAsset asset prev)[i]? =
          some (if prev[i].id = asset.id then asset else prev[i])) ∧
    ((∀ a ∈ prev, a.id ≠ asset.id) →
      handleSaveAsset asset prev = prev ++ [asset]) ∧
    List.Sublist (handleDeleteAsset id prev) prev ∧
    (∀ a, a ∈ handleDeleteAsset id prev ↔ a ∈ prev ∧ a.id ≠ id) ∧
    (∀ a, a.id ≠ id →
      (handleDeleteAsset id prev).count a = prev.count a) := by
  refine ⟨?_, ?_, ?_, ?_, ?_⟩
  · intro hex
    have hfind : (List.find? (fun a => a.id = asset.id) prev).isSome := by
      rw [List.find?_isSome]
      obtain ⟨a, ha, hid⟩ := hex
      exact ⟨a, ha, by simp [hid]⟩
    obtain ⟨w, hw⟩ := Option.isSome_iff_exists.mp hfind
    constructor
    · simp [handleSaveAsset, hw]
    · intro i h
      simp [handleSaveAsset, hw, List.getElem?_map,
        List.getElem?_eq_getElem h]
  · intro hnone
    have hfind : List.find? (fun a => a.id = asset.id) prev = none := by
      rw [List.find?_eq_none]
      intro a ha
      simp [hnone a ha]
    simp [handleSaveAsset, hfind]
  · exact List.filter_sublist prev
  · intro a
    simp [handleDeleteAsset, List.mem_filter]
  · intro a ha
    rw [handleDeleteAsset, List.count_filter (by simp [ha])]

theorem save_delete_spec_witness :
    handleSaveAsset exampleBTC [exampleRELIANCE] =
      [exampleRELIANCE, exampleBTC] ∧
    (handleSaveAsset exampleRELIANCE [exampleRELIANCE])[0]? =
      some exampleRELIANCE := by
  constructor
  · exact (save_delete_spec exampleBTC [exampleRELIANCE] "x").2.1
      (by intro a ha
          simp only [List.mem_singleton] at ha
          subst ha
          exact fun hEq => by simp [exampleRELIANCE, exampleBTC] at hEq)
  · have h := ((save_delete_spec exampleRELIANCE [exampleRELIANCE] "x").1
      ⟨exampleRELIANCE, List.mem_singleton.mpr rfl, rfl⟩).2 0 (by norm_num)
    simpa using h

theorem insertValueDesc_perm (x : PerfEntry) (l : List PerfEntry) :
    List.Perm (insertValueDesc x l) (x :: l) := by
  induction l with
  | nil => exact List.Perm.refl _
  | cons y ys ih =>
    simp only [insertValueDesc]
    by_cases h : y.value ≤ x.value
    · simp [h]
    · simp only [if_neg h]
      exact (ih.cons y).trans (List.Perm.swap x y ys)

theorem sortValueDesc_perm (l : List PerfEntry) :
    List.Perm (sortValueDesc l) l := by
  induction l with
  | nil => exact List.Perm.refl _
  | cons x xs ih =>
    exact (insertValueDesc_perm x (sortValueDesc xs)).trans (ih.cons x)

theorem insertValueDesc_pairwise (x : PerfEntry) (l : List PerfEntry)
    (h : l.Pairwise fun a b => b.value ≤ a.value) :
    (insertValueDesc x l).Pairwise fun a b => b.value ≤ a.value := by
  induction l with
  | nil => simp [insertValueDesc]
  | cons y ys ih =>
    simp only [insertValueDesc]
    rcases List.pairwise_cons.mp h with ⟨hy, hys⟩
    by_cases hxy : y.value ≤ x.value
    · simp only [if_pos hxy]
      refine List.pairwise_cons.mpr ⟨?_, h⟩
      intro z hz
      rcases List.mem_cons.mp hz with hz | hz
      · exact hz ▸ hxy
      · exact le_trans (hy z hz) hxy
    · simp only [if_neg hxy]
      refine List.pairwise_cons.mpr ⟨?_, ih hys⟩
      intro z hz
      rcases List.mem_cons.mp ((insertValueDesc_perm x ys).mem_iff.mp hz)
          with hz | hz
      · exact hz ▸ le_of_lt (lt_of_not_le hxy)
      · exact hy z hz

theorem sortValueDesc_pairwise (l : List PerfEntry) :
    (sortValueDesc l).Pairwise fun a b => b.value ≤ a.value := by
  induction l with
  | nil => simp [sortValueDesc]
  | cons x xs ih => exact insertValueDesc_pairwise x (sortValueDesc xs) ih

theorem filter_insertValueDesc (x : PerfEntry) (l : List PerfEntry) (v : ℤ) :
    (insertValueDesc x l).filter (fun e => e.value == v) =
      if x.value = v then x :: l.filter (fun e => e.value == v)
      else l.filter (fun e => e.value == v) := by
  induction l with
  | nil =>
    by_cases hv : x.value = v <;>
      simp [insertValueDesc, List.filter_cons, beq_iff_eq, hv]
  | cons y ys ih =>
    simp only [insertValueDesc]
    by_cases hxy : y.value ≤ x.value
    · rw [if_pos hxy]
      by_cases hv : x.value = v <;>
        simp [List.filter_cons, beq_iff_eq, hv]
    · rw [if_neg hxy]
      by_cases hv : x.value = v
      · have hyv : ¬(y.value = v) := by
          have hlt := lt_of_not_le hxy
          omega
        simp [List.filter_cons, beq_iff_eq, hyv, ih, hv]
      · by_cases hyv : y.value = v <;>
          simp [List.filter_cons, beq_iff_eq, hyv, ih, hv]

theorem filter_sortValueDesc (l : List PerfEntry) (v : ℤ) :
    (sortValueDesc l).filter (fun e => e.value == v) =
      l.filter (fun e => e.value == v) := by
  induction l with
  | nil => rfl
  | cons x xs ih =>
    simp only [sortValueDesc, filter_insertValueDesc, ih, List.filter_cons]
    by_cases hv : x.value = v <;> simp [hv]

/-- Asset "A": converted market value 100.6 INR, rounding to 101. -/
def perfLow : Asset :=
  { id := "A", type := AssetType.INDIAN_STOCK, name := "A", symbol := "A",
    quantity := 1, averagePrice := 0, currentPrice := 503/5,
    currency := Currency.INR }

/-- Asset "B": converted market value 101.4 INR, also rounding to 101. -/
def perfHigh : Asset :=
  { id := "B", type := AssetType.INDIAN_STOCK, name := "B", symbol := "B",
    quantity := 1, averagePrice := 0, currentPrice := 507/5,
    currency := Currency.INR }

/-- C5 (counterexample): on `[perfLow, perfHigh]` with converted market
values 100.6 < 101.4, both rounding to 101, the output keeps the original
order ["A", "B"] — so the sequence is not ordered descending by converted
market value (which would require "B" first): the code sorts by the rounded
value, under which this is a tie. -/
theorem performance_sort_counterexample :
    perfMarketValue perfLow < perfMarketValue perfHigh ∧
    (assetPerformanceData [perfLow, perfHigh]).map (fun e => e.symbol) =
      ["A", "B"] := by
  have hnc : ¬(Currency.INR = Currency.USD) := by decide
  have hA : mkPerfEntry perfLow =
      { symbol := "A", name := "A", invested := 0, value := 101,
        profitPct := 0, color := "#3b82f6" } := by
    have hv : jsRound ((503 : ℚ)/5) = 101 := by
      apply jsRound_eq_of <;> norm_num
    simp [mkPerfEntry, perfLow, typeColor, hnc, hv, jsRound_zero]
  have hB : mkPerfEntry perfHigh =
      { symbol := "B", name := "B", invested := 0, value := 101,
        profitPct := 0, color := "#3b82f6" } := by
    have hv : jsRound ((507 : ℚ)/5) = 101 := by
      apply jsRound_eq_of <;> norm_num
    simp [mkPerfEntry, perfHigh, typeColor, hnc, hv, jsRound_zero]
  constructor
  · norm_num [perfMarketValue, perfLow, perfHigh, hnc]
  · simp [assetPerformanceData, hA, hB, sortValueDesc, insertValueDesc,
      List.take]

/-- C5 (amended): `assetPerformanceData` returns at most 8 entries: the
first 8 of the stable descending sort of the per-asset entries by their
rounded converted market value. The output is sorted descending by that
rounded value; the full sorted list is a permutation of the per-asset
entries that, restricted to any single rounded value, preserves the original
collection order (ties broken by original order); each entry carries the
rounded converted market and invested values, the zero-guarded profit
percent, and a display color keyed by the asset's type. -/
theorem assetPerformanceData_spec (assets : List Asset) (a : Asset) :
    assetPerformanceData assets =
      (sortValueDesc (assets.map mkPerfEntry)).take 8 ∧
    (assetPerformanceData assets).length ≤ 8 ∧
    (assetPerformanceData assets).Pairwise
      (fun x y => y.value ≤ x.value) ∧
    List.Perm (sortValueDesc (assets.map mkPerfEntry))
      (assets.map mkPerfEntry) ∧
    (∀ v : ℤ,
      (sortValueDesc (assets.map mkPerfEntry)).filter
          (fun e => e.value == v) =
        (assets.map mkPerfEntry).filter (fun e => e.value == v)) ∧
    (mkPerfEntry a).value = jsRound (perfMarketValue a) ∧
    (mkPerfEntry a).invested = jsRound (perfInvestedValue a) ∧
    (mkPerfEntry a).profitPct =
      (if 0 < perfInvestedValue a then
        (perfMarketValue a - perfInvestedValue a) / perfInvestedValue a * 100
      else 0) ∧
    (mkPerfEntry a).color = typeColor a.type := by
  refine ⟨rfl, ?_, ?_, sortValueDesc_perm _,
    filter_sortValueDesc _, rfl, rfl, rfl, rfl⟩
  · exact le_trans (List.length_take_le 8 _) (le_refl 8)
  · exact (sortValueDesc_pairwise _).sublist (List.take_sublist 8 _)

end Networth
